import Mathlib

/-!
# Temperature logger (`volumecontrolandtemplogger.c`)

A shallow embedding of the Arduino sketch: `error`, `setup` and `loop` become
functions on an explicit machine state that also return the trace of
peripheral calls they make, in source order.  Values read from the outside
world (`millis()`, `RTC.now()`, `analogRead`, the result of `SD.begin`,
`SD.open` and `RTC.begin`) are inputs of the functions.  `float` values are
modelled as exact rationals, with division guarded: the result of a division
is `none` when the divisor is zero.
-/

namespace TempLogger

/-! ## Constants of the sketch -/

/-- Source: `#define ECHO_TO_SERIAL 1` -/
def ECHO_TO_SERIAL : Bool := true

/-- Source: `#define redLEDpin 2` -/
def redLEDpin : Nat := 2

/-- Source: `#define greenLEDpin 3` -/
def greenLEDpin : Nat := 3

/-- Source: `#define tempPin 0` -/
def tempPin : Nat := 0

/-- Source: `#define BANDGAPREF 14` -/
def BANDGAPREF : Nat := 14

/-- Source: `#define bandgap_voltage 1.1` -/
def bandgap_voltage : ℚ := 1.1

/-- Source: `static const int SamplePeriod = 1000;` -/
def SamplePeriod : Nat := 1000

/-- Source: `static const int SavePeriod = 10000;` -/
def SavePeriod : Nat := 10000

/-- Source: `static const float thermocouple_voltage = 1.25;` -/
def thermocouple_voltage : ℚ := 1.25

/-- Source: `static const float thermocouple_divider = 0.005;` -/
def thermocouple_divider : ℚ := 0.005

/-- Source: `const int SD_Select = 10;` -/
def SD_Select : Nat := 10

/-! ## Machine arithmetic -/

/-- Number of values of a `uint32_t`. -/
def U32 : Nat := 2 ^ 32

/-- Subtraction of two `uint32_t` values, wrapping modulo `2^32`. -/
def sub32 (a b : Nat) : Nat := (a % U32 + (U32 - b % U32)) % U32

/-- Division of the float model, guarded: `none` is the division-by-zero branch. -/
def fdiv (a b : ℚ) : Option ℚ := if b = 0 then none else some (a / b)

/-- The argument of the `delay` call that opens `loop`:
`(SamplePeriod - 1) - (millis() % SamplePeriod)`, in `unsigned long` arithmetic. -/
def sampleDelay (millis : Nat) : Nat :=
  sub32 (SamplePeriod - 1) ((millis % U32) % SamplePeriod)

/-- Source: `float tempReadingAdjusted = tempReading * 0.0049;` -/
def tempReadingAdjusted (tempReading : Int) : ℚ := (tempReading : ℚ) * 0.0049

/-- Source: `float temperatureC = (tempReadingAdjusted - thermocouple_voltage)/thermocouple_divider;` -/
def temperatureC (tempReading : Int) : Option ℚ :=
  fdiv (tempReadingAdjusted tempReading - thermocouple_voltage) thermocouple_divider

/-- Source: `float temperatureF = (temperatureC * 9 / 5) + 32;` -/
def temperatureF (tempC : ℚ) : Option ℚ :=
  (fdiv (tempC * 9) 5).map (fun x => x + 32)

/-- Source: `float supplyvoltage = (bandgap_voltage * 1024) / refReading;` -/
def supplyvoltage (refReading : Int) : Option ℚ :=
  fdiv (bandgap_voltage * 1024) (refReading : ℚ)

/-! ## Peripherals: printed items and the trace of calls -/

/-- One value handed to a `print` call (of `Serial` or of `TempLogFile`). -/
inductive Item where
  | str (s : String)
  | chr (c : Char)
  | num (n : Int)
  | flt (v : Option ℚ)
  | ln
  deriving DecidableEq

/-- One call to a peripheral or library routine. -/
inductive Event where
  | serialBegin (baud : Nat)
  | serial (it : Item)
  | file (it : Item)
  | pinMode (pin : Nat)
  | digitalWrite (pin : Nat) (level : Bool)
  | sdBegin (cs : Nat)
  | sdExists (name : String)
  | sdOpen (name : String)
  | wireBegin
  | rtcBegin
  | rtcNow
  | analogReference
  | analogRead (pin : Nat)
  | delay (ms : Nat)
  | flush
  deriving DecidableEq

/-- The value returned by `RTC.now()`, through the accessors `loop` uses. -/
structure DateTime where
  unixtime : Nat
  year : Nat
  month : Nat
  day : Nat
  hour : Nat
  minute : Nat
  second : Nat
  deriving DecidableEq

/-- The globals of the sketch, the files on the SD card, the two LEDs, and
whether control is inside the `while(1);` of `error`. -/
structure Machine where
  syncTime : Nat
  TempLogFile : Option String
  card : List String
  redLED : Bool
  greenLED : Bool
  halted : Bool
  deriving DecidableEq

/-- What one iteration of `loop` reads from the outside world, in source order:
`millis()` on lines 129 and 134, `RTC.now()`, the two `analogRead(tempPin)`,
the two `analogRead(BANDGAPREF)`, `millis()` on lines 233 and 234. -/
structure LoopEnv where
  millisDelay : Nat
  millisLog : Nat
  now : DateTime
  tempSettle : Int
  tempReading : Int
  refSettle : Int
  refReading : Int
  millisCheck : Nat
  millisSync : Nat
  deriving DecidableEq

/-- The double quote character printed around the date. -/
def quoteChar : Char := Char.ofNat 34

/-- The local variables of `loop` that hold computed values. -/
structure LoopLocals where
  m : Nat
  tempReading : Int
  tempReadingAdjusted : ℚ
  temperatureC : Option ℚ
  temperatureF : Option ℚ
  refReading : Int
  supplyvoltage : Option ℚ

/-- The locals of one iteration of `loop`, computed from what it read. -/
def loopLocals (env : LoopEnv) : LoopLocals :=
  let tempReading := env.tempReading
  let tempC := temperatureC tempReading
  { m := env.millisLog % U32
    tempReading := tempReading
    tempReadingAdjusted := tempReadingAdjusted tempReading
    temperatureC := tempC
    temperatureF := tempC.bind temperatureF
    refReading := env.refReading
    supplyvoltage := supplyvoltage env.refReading }

/-- The calls of `loop` from its first line to `digitalWrite(greenLEDpin, LOW)`,
one entry per statement, in source order. -/
def loopPrints (env : LoopEnv) : List Event :=
  let v := loopLocals env
  let now := env.now
  [Event.delay (sampleDelay env.millisDelay),
   Event.digitalWrite greenLEDpin true,
   Event.file (Item.num v.m),
   Event.file (Item.str ", ")]
  ++ (if ECHO_TO_SERIAL then
        [Event.serial (Item.num v.m),
         Event.serial (Item.str ", ")]
      else [])
  ++ [Event.rtcNow,
      Event.file (Item.num now.unixtime),
      Event.file (Item.str ", "),
      Event.file (Item.chr quoteChar),
      Event.file (Item.num now.year),
      Event.file (Item.str "/"),
      Event.file (Item.num now.month),
      Event.file (Item.str "/"),
      Event.file (Item.num now.day),
      Event.file (Item.str " "),
      Event.file (Item.num now.hour),
      Event.file (Item.str ":"),
      Event.file (Item.num now.minute),
      Event.file (Item.str ":"),
      Event.file (Item.num now.second),
      Event.file (Item.chr quoteChar)]
  ++ (if ECHO_TO_SERIAL then
        [Event.serial (Item.num now.unixtime),
         Event.serial (Item.str ", "),
         Event.serial (Item.chr quoteChar),
         Event.serial (Item.num now.year),
         Event.serial (Item.str "/"),
         Event.serial (Item.num now.month),
         Event.serial (Item.str "/"),
         Event.serial (Item.num now.day),
         Event.serial (Item.str " "),
         Event.serial (Item.num now.hour),
         Event.serial (Item.str ":"),
         Event.serial (Item.num now.minute),
         Event.serial (Item.str ":"),
         Event.serial (Item.num now.second),
         Event.serial (Item.chr quoteChar)]
      else [])
  ++ [Event.analogRead tempPin,
      Event.delay 10,
      Event.analogRead tempPin,
      Event.file (Item.str ", "),
      Event.file (Item.num v.tempReading)]
  ++ (if ECHO_TO_SERIAL then
        [Event.serial (Item.str ", "),
         Event.serial (Item.num v.tempReading)]
      else [])
  ++ [Event.file (Item.str ", "),
      Event.file (Item.flt v.temperatureC)]
  ++ (if ECHO_TO_SERIAL then
        [Event.serial (Item.str ", "),
         Event.serial (Item.flt v.temperatureC)]
      else [])
  ++ [Event.analogRead BANDGAPREF,
      Event.delay 10,
      Event.analogRead BANDGAPREF,
      Event.file (Item.str ", "),
      Event.file (Item.flt v.supplyvoltage)]
  ++ (if ECHO_TO_SERIAL then
        [Event.serial (Item.str ", "),
         Event.serial (Item.flt v.supplyvoltage)]
      else [])
  ++ [Event.file Item.ln]
  ++ (if ECHO_TO_SERIAL then [Event.serial Item.ln] else [])
  ++ [Event.digitalWrite greenLEDpin false]

/-- One call of `loop()`: the prints, then the interval-gated flush of lines
231 to 239.  The early `return` leaves `syncTime` as it was. -/
def loop (env : LoopEnv) (s : Machine) : Machine × List Event :=
  let s1 : Machine := { s with greenLED := false }
  if sub32 env.millisCheck s1.syncTime < SavePeriod then
    (s1, loopPrints env)
  else
    ({ s1 with syncTime := env.millisSync % U32, redLED := false },
     loopPrints env ++
       [Event.digitalWrite redLEDpin true,
        Event.flush,
        Event.digitalWrite redLEDpin false])

/-- The items printed to `Serial`, in order. -/
def serialItems (evs : List Event) : List Item :=
  evs.filterMap (fun e => match e with
    | Event.serial it => some it
    | _ => none)

/-- The items printed to `TempLogFile`, in order. -/
def fileItems (evs : List Event) : List Item :=
  evs.filterMap (fun e => match e with
    | Event.file it => some it
    | _ => none)

/-! ## `error` and `setup` -/

/-- The body of `error(str)`: two prints, the red LED, then `while(1);`, which
is the absorbing flag `halted`. -/
def error (str : String) (s : Machine) : Machine × List Event :=
  ({ s with redLED := true, halted := true },
   [Event.serial (Item.str "error: "),
    Event.serial (Item.str str),
    Event.serial Item.ln,
    Event.digitalWrite redLEDpin true])

/-- The buffer `filename` after `filename[6] = i/10 + '0'; filename[7] = i%10 + '0';`
(the right-hand sides are stored into a `char`, hence the reduction modulo 256). -/
def filename (i : Nat) : String :=
  String.mk
    ((("LOGGER00.CSV".toList).set 6 (Char.ofNat ((i / 10 + '0'.toNat) % 256))).set 7
      (Char.ofNat ((i % 10 + '0'.toNat) % 256)))

/-- The loop `for (uint8_t i = 0; i < 100; i++)` of `setup`, entered at index `i`
with `k` iterations left to run at most.  Returns the index it called `SD.open`
at (if any) and the calls it made.  `SD.exists` is membership in the card. -/
def createLoop (card : List String) : Nat → Nat → Option Nat × List Event
  | 0, _ => (none, [])
  | k + 1, i =>
    if i < 100 then
      if !(decide (filename i ∈ card)) then
        (some i, [Event.sdExists (filename i), Event.sdOpen (filename i)])
      else
        let r := createLoop card k (i + 1)
        (r.1, Event.sdExists (filename i) :: r.2)
    else (none, [])

/-- What `setup` learns from the libraries: whether `SD.begin` succeeded, whether
`SD.open` returns a usable `File`, whether `RTC.begin` succeeded. -/
structure SetupEnv where
  sdBeginOk : Bool
  openOk : Bool
  rtcBeginOk : Bool
  deriving DecidableEq

/-- The state at reset: globals at their initialisers, `card` on the SD card. -/
def powerOn (card : List String) : Machine :=
  { syncTime := 0
    TempLogFile := none
    card := card
    redLED := false
    greenLED := false
    halted := false }

/-- The header line `setup` prints. -/
def headerLine : String := "millis,stamp,datetime,light,temp,vcc"

/-- The function `setup()`, run from the reset state.  `SD.open(filename, FILE_WRITE)`
creates the file when it succeeds.  A call of `error` ends the function: it
never returns. -/
def setup (env : SetupEnv) (card : List String) : Machine × List Event :=
  let s0 := powerOn card
  let ev0 : List Event :=
    [Event.serialBegin 9600,
     Event.serial Item.ln,
     Event.pinMode redLEDpin,
     Event.pinMode greenLEDpin,
     Event.serial (Item.str "Initializing SD card..."),
     Event.pinMode 10,
     Event.sdBegin SD_Select]
  if !env.sdBeginOk then
    let r := error "Card failed, or not present" s0
    (r.1, ev0 ++ r.2)
  else
    let ev1 := ev0 ++ [Event.serial (Item.str "card initialized."), Event.serial Item.ln]
    let found := createLoop card 100 0
    let s1 : Machine :=
      match found.1 with
      | some i =>
        if env.openOk then
          { s0 with TempLogFile := some (filename i), card := filename i :: s0.card }
        else s0
      | none => s0
    let ev2 := ev1 ++ found.2
    match s1.TempLogFile with
    | none =>
      let r := error "couldnt create file" s1
      (r.1, ev2 ++ r.2)
    | some name =>
      let ev3 := ev2 ++
        [Event.serial (Item.str "Logging to: "),
         Event.serial (Item.str name),
         Event.serial Item.ln,
         Event.wireBegin,
         Event.rtcBegin]
      let ev4 := ev3 ++
        (if !env.rtcBeginOk then
          [Event.file (Item.str "RTC failed"), Event.file Item.ln]
          ++ (if ECHO_TO_SERIAL then
                [Event.serial (Item.str "RTC failed"), Event.serial Item.ln]
              else [])
        else [])
      let ev5 := ev4 ++
        [Event.file (Item.str headerLine), Event.file Item.ln]
        ++ (if ECHO_TO_SERIAL then
              [Event.serial (Item.str headerLine), Event.serial Item.ln]
            else [])
        ++ [Event.analogReference]
      (s1, ev5)

/-! ## The whole program -/

/-- One turn of the main loop of the Arduino core (`for (;;) loop();`): nothing
runs once control is inside the `while(1);` of `error`. -/
def step (env : LoopEnv) (s : Machine) : Machine × List Event :=
  if s.halted then (s, []) else loop env s

/-- Successive turns of the main loop, one per element of `envs`. -/
def runLoops : List LoopEnv → Machine → Machine × List Event
  | [], s => (s, [])
  | e :: es, s =>
    let r := step e s
    let r2 := runLoops es r.1
    (r2.1, r.2 ++ r2.2)

/-- The program: `setup()` from reset, then the main loop. -/
def program (env : SetupEnv) (card : List String) (envs : List LoopEnv) :
    Machine × List Event :=
  let r := setup env card
  let r2 := runLoops envs r.1
  (r2.1, r.2 ++ r2.2)

/-! ## Observations on traces -/

/-- The names `SD.open` was called with, in order. -/
def openedNames (evs : List Event) : List String :=
  evs.filterMap (fun e => match e with
    | Event.sdOpen name => some name
    | _ => none)

/-- The analog pins read, in order. -/
def analogReads (evs : List Event) : List Nat :=
  evs.filterMap (fun e => match e with
    | Event.analogRead pin => some pin
    | _ => none)

/-- The record of one sample as the list of printed items: the columns are
`m`, the unix time, the quoted date, the raw temperature reading, a float and
another float, then the end of line. -/
def recordItems (m : Nat) (now : DateTime) (tempReading : Int) (tempC vcc : Option ℚ) :
    List Item :=
  [Item.num m, Item.str ", ",
   Item.num now.unixtime, Item.str ", ",
   Item.chr quoteChar,
   Item.num now.year, Item.str "/", Item.num now.month, Item.str "/", Item.num now.day,
   Item.str " ",
   Item.num now.hour, Item.str ":", Item.num now.minute, Item.str ":", Item.num now.second,
   Item.chr quoteChar,
   Item.str ", ", Item.num tempReading,
   Item.str ", ", Item.flt tempC,
   Item.str ", ", Item.flt vcc,
   Item.ln]

/-- The state after successive calls of `loop`, one per element of the list. -/
def loopsState : List LoopEnv → Machine → Machine
  | [], s => s
  | e :: es, s => loopsState es (loop e s).1

/-- The values of `syncTime` left by the calls of `loop` that flushed, in order. -/
def flushStamps : List LoopEnv → Machine → List Nat
  | [], _ => []
  | e :: es, s =>
    if Event.flush ∈ (loop e s).2 then
      (loop e s).1.syncTime :: flushStamps es (loop e s).1
    else flushStamps es (loop e s).1

/-- All the values `millis()` returns during successive calls of `loop`, in the
order of the calls. -/
def millisReadings : List LoopEnv → List Nat
  | [] => []
  | e :: es => e.millisDelay :: e.millisLog :: e.millisCheck :: e.millisSync :: millisReadings es

/-- The items written to the log file by successive calls of `loop`: one record
per call. -/
def recordsOf : List LoopEnv → List Item
  | [] => []
  | e :: es =>
    recordItems (e.millisLog % U32) e.now e.tempReading
      (temperatureC e.tempReading) (supplyvoltage e.refReading) ++ recordsOf es

/-- The libraries all succeed. -/
def allOk : SetupEnv := { sdBeginOk := true, openOk := true, rtcBeginOk := true }

/-- The card is absent or unreadable: `SD.begin` fails. -/
def noCard : SetupEnv := { sdBeginOk := false, openOk := false, rtcBeginOk := true }

/-- Everything succeeds but `RTC.begin`. -/
def noClock : SetupEnv := { sdBeginOk := true, openOk := true, rtcBeginOk := false }

/-- A sample input of `loop`: thirteen seconds after reset, both readings mid-range. -/
def sampleEnv : LoopEnv :=
  { millisDelay := 12000
    millisLog := 12999
    now := { unixtime := 1700000000, year := 2023, month := 11, day := 14,
             hour := 22, minute := 13, second := 20 }
    tempSettle := 300
    tempReading := 301
    refSettle := 229
    refReading := 230
    millisCheck := 13050
    millisSync := 13051 }

/-- The sample of the following second. -/
def laterEnv : LoopEnv :=
  { sampleEnv with
    millisDelay := 13060
    millisLog := 13999
    millisCheck := 14050
    millisSync := 14050 }

/-- The same sample with the reference channel reading zero. -/
def zeroRefEnv : LoopEnv := { sampleEnv with refReading := 0 }

/-! ## Arithmetic of the record -/

theorem fdiv_of_ne_zero (a b : ℚ) (h : b ≠ 0) : fdiv a b = some (a / b) := by
  simp [fdiv, h]

theorem fdiv_eq_none_iff (a b : ℚ) : fdiv a b = none ↔ b = 0 := by
  unfold fdiv
  split <;> simp_all

theorem supplyvoltage_of_ne_zero (r : Int) (h : r ≠ 0) :
    supplyvoltage r = some (bandgap_voltage * 1024 / (r : ℚ)) :=
  fdiv_of_ne_zero _ _ (by exact_mod_cast h)

theorem temperatureC_eq (raw : Int) : temperatureC raw = some (0.98 * (raw : ℚ) - 250) := by
  unfold temperatureC
  rw [fdiv_of_ne_zero _ _ (by norm_num [thermocouple_divider])]
  congr 1
  simp only [tempReadingAdjusted, thermocouple_voltage, thermocouple_divider]
  ring

theorem fileItems_loopPrints (env : LoopEnv) :
    fileItems (loopPrints env) =
      recordItems (env.millisLog % U32) env.now env.tempReading
        (temperatureC env.tempReading) (supplyvoltage env.refReading) := by
  simp [fileItems, loopPrints, loopLocals, recordItems, ECHO_TO_SERIAL]

theorem serialItems_loopPrints (env : LoopEnv) :
    serialItems (loopPrints env) =
      recordItems (env.millisLog % U32) env.now env.tempReading
        (temperatureC env.tempReading) (supplyvoltage env.refReading) := by
  simp [serialItems, loopPrints, loopLocals, recordItems, ECHO_TO_SERIAL]

theorem loop_of_lt (env : LoopEnv) (s : Machine)
    (h : sub32 env.millisCheck s.syncTime < SavePeriod) :
    loop env s = ({ s with greenLED := false }, loopPrints env) := by
  simp [loop, h]

theorem loop_of_not_lt (env : LoopEnv) (s : Machine)
    (h : ¬ sub32 env.millisCheck s.syncTime < SavePeriod) :
    loop env s =
      ({ s with greenLED := false, syncTime := env.millisSync % U32, redLED := false },
       loopPrints env ++
        [Event.digitalWrite redLEDpin true, Event.flush, Event.digitalWrite redLEDpin false]) := by
  simp [loop, h]

theorem loop_events (env : LoopEnv) (s : Machine) :
    (loop env s).2 = loopPrints env ∨
      (loop env s).2 = loopPrints env ++
        [Event.digitalWrite redLEDpin true, Event.flush, Event.digitalWrite redLEDpin false] := by
  by_cases h : sub32 env.millisCheck s.syncTime < SavePeriod
  · exact Or.inl (by rw [loop_of_lt env s h])
  · exact Or.inr (by rw [loop_of_not_lt env s h])

theorem fileItems_loop (env : LoopEnv) (s : Machine) :
    fileItems (loop env s).2 = fileItems (loopPrints env) := by
  rcases loop_events env s with h | h
  · rw [h]
  · rw [h]; simp [fileItems]

theorem serialItems_loop (env : LoopEnv) (s : Machine) :
    serialItems (loop env s).2 = serialItems (loopPrints env) := by
  rcases loop_events env s with h | h
  · rw [h]
  · rw [h]; simp [serialItems]

/-- C1: for a reference reading `r` with `0 < r <= 1023` the supply voltage that
`loop` computes and prints is `bandgap_voltage*1024/r` with `bandgap_voltage = 1.1`,
in exact rational arithmetic, and the supply voltage is strictly decreasing in
the reading: for `0 < a < b` the value at `a` is greater than the value at `b`. -/
theorem supply_voltage_formula_and_antitone :
    (∀ (env : LoopEnv) (s : Machine), 0 < env.refReading → env.refReading ≤ 1023 →
      (loopLocals env).supplyvoltage = some (1.1 * 1024 / (env.refReading : ℚ)) ∧
      bandgap_voltage = 1.1 ∧
      Event.file (Item.flt (some (1.1 * 1024 / (env.refReading : ℚ)))) ∈ (loop env s).2) ∧
    (∀ a b : Int, 0 < a → a < b →
      ∃ va vb : ℚ, supplyvoltage a = some va ∧ supplyvoltage b = some vb ∧ vb < va) := by
  refine ⟨fun env s h0 _ => ?_, fun a b ha hab => ?_⟩
  · have hv : supplyvoltage env.refReading = some (1.1 * 1024 / (env.refReading : ℚ)) := by
      rw [supplyvoltage_of_ne_zero _ (by omega)]
      simp [bandgap_voltage]
    refine ⟨by simpa [loopLocals] using hv, rfl, ?_⟩
    have hmem : Item.flt (some (1.1 * 1024 / (env.refReading : ℚ))) ∈
        fileItems (loop env s).2 := by
      rw [fileItems_loop, fileItems_loopPrints, hv]
      simp [recordItems]
    simp only [fileItems, List.mem_filterMap] at hmem
    obtain ⟨e, he, hit⟩ := hmem
    cases e <;> simp_all
  · refine ⟨_, _, supplyvoltage_of_ne_zero a (by omega), supplyvoltage_of_ne_zero b (by omega), ?_⟩
    have ha' : (0 : ℚ) < a := by exact_mod_cast ha
    have hab' : (a : ℚ) < b := by exact_mod_cast hab
    have hnum : (0 : ℚ) < bandgap_voltage * 1024 := by norm_num [bandgap_voltage]
    exact div_lt_div_of_pos_left hnum ha' hab'

theorem supply_voltage_formula_and_antitone_witness :
    ((loopLocals sampleEnv).supplyvoltage = some (1.1 * 1024 / (sampleEnv.refReading : ℚ)) ∧
      bandgap_voltage = 1.1 ∧
      Event.file (Item.flt (some (1.1 * 1024 / (sampleEnv.refReading : ℚ)))) ∈
        (loop sampleEnv (powerOn [])).2) ∧
    (∃ va vb : ℚ, supplyvoltage 1 = some va ∧ supplyvoltage 2 = some vb ∧ vb < va) :=
  ⟨supply_voltage_formula_and_antitone.1 sampleEnv (powerOn []) (by decide) (by decide),
   supply_voltage_formula_and_antitone.2 1 2 (by decide) (by decide)⟩

/-- C8: for a raw temperature reading `raw` in `0..1023` the temperature that `loop`
logs is `(raw*0.0049 - 1.25)/0.005`, which in exact rational arithmetic is the
affine function `0.98*raw - 250`, strictly increasing in `raw`; the Fahrenheit
value `C*9/5 + 32` is computed, differs from the Celsius value, and the record
written to the file has the raw reading, the Celsius value and the supply
voltage as its only sensor columns. -/
theorem temperature_affine_fahrenheit_unused :
    (∀ (env : LoopEnv) (s : Machine), 0 ≤ env.tempReading → env.tempReading ≤ 1023 →
      (loopLocals env).temperatureC =
          some (((env.tempReading : ℚ) * 0.0049 - 1.25) / 0.005) ∧
      ((env.tempReading : ℚ) * 0.0049 - 1.25) / 0.005 = 0.98 * (env.tempReading : ℚ) - 250 ∧
      (loopLocals env).temperatureF =
          some ((0.98 * (env.tempReading : ℚ) - 250) * 9 / 5 + 32) ∧
      (loopLocals env).temperatureF ≠ (loopLocals env).temperatureC ∧
      fileItems (loop env s).2 =
          recordItems (env.millisLog % U32) env.now env.tempReading
            (some (0.98 * (env.tempReading : ℚ) - 250)) (supplyvoltage env.refReading)) ∧
    (∀ a b : Int, a < b → (0.98 * (a : ℚ) - 250) < 0.98 * (b : ℚ) - 250) := by
  refine ⟨fun env s _ _ => ?_, fun a b hab => ?_⟩
  · have hC : (loopLocals env).temperatureC = some (0.98 * (env.tempReading : ℚ) - 250) := by
      simp [loopLocals, temperatureC_eq]
    have hF : (loopLocals env).temperatureF =
        some ((0.98 * (env.tempReading : ℚ) - 250) * 9 / 5 + 32) := by
      simp [loopLocals, temperatureC_eq, temperatureF, fdiv]
    have hval : ((env.tempReading : ℚ) * 0.0049 - 1.25) / 0.005 =
        0.98 * (env.tempReading : ℚ) - 250 := by
      norm_num
      ring
    refine ⟨by rw [hC, hval], hval, hF, ?_, ?_⟩
    · rw [hC, hF]
      intro h
      have h1 : (0.98 * (env.tempReading : ℚ) - 250) * 9 / 5 + 32 =
          0.98 * (env.tempReading : ℚ) - 250 := Option.some.inj h
      have h2 : ((98 * env.tempReading : Int) : ℚ) = ((21000 : Int) : ℚ) := by
        push_cast
        linarith
      have h3 : 98 * env.tempReading = 21000 := by exact_mod_cast h2
      omega
    · rw [fileItems_loop, fileItems_loopPrints, temperatureC_eq]
  · have hab' : (a : ℚ) < b := by exact_mod_cast hab
    linarith

theorem temperature_affine_fahrenheit_unused_witness :
    ((loopLocals sampleEnv).temperatureC =
          some (((sampleEnv.tempReading : ℚ) * 0.0049 - 1.25) / 0.005) ∧
      ((sampleEnv.tempReading : ℚ) * 0.0049 - 1.25) / 0.005 =
          0.98 * (sampleEnv.tempReading : ℚ) - 250 ∧
      (loopLocals sampleEnv).temperatureF =
          some ((0.98 * (sampleEnv.tempReading : ℚ) - 250) * 9 / 5 + 32) ∧
      (loopLocals sampleEnv).temperatureF ≠ (loopLocals sampleEnv).temperatureC ∧
      fileItems (loop sampleEnv (powerOn [])).2 =
          recordItems (sampleEnv.millisLog % U32) sampleEnv.now sampleEnv.tempReading
            (some (0.98 * (sampleEnv.tempReading : ℚ) - 250))
            (supplyvoltage sampleEnv.refReading)) ∧
    ((0.98 * ((0 : Int) : ℚ) - 250) < 0.98 * ((1 : Int) : ℚ) - 250) :=
  ⟨temperature_affine_fahrenheit_unused.1 sampleEnv (powerOn []) (by decide) (by decide),
   temperature_affine_fahrenheit_unused.2 0 1 (by decide)⟩

/-- C9: with division guarded, the supply-voltage computation takes the
division-by-zero branch exactly when `refReading = 0`; `loop` has no check in
front of it: whenever the reference channel reads 0 the branch is taken and its
result is what gets printed, and a reading of 0 is a reading the converter can
return. -/
theorem supply_division_unguarded :
    (∀ r : Int, supplyvoltage r = none ↔ r = 0) ∧
    (∀ (env : LoopEnv) (s : Machine), env.refReading = 0 →
      (loopLocals env).supplyvoltage = none ∧
      fileItems (loop env s).2 =
        recordItems (env.millisLog % U32) env.now env.tempReading
          (temperatureC env.tempReading) none) ∧
    (∃ env : LoopEnv, 0 ≤ env.refReading ∧ env.refReading ≤ 1023 ∧
      (loopLocals env).supplyvoltage = none) := by
  have hiff : ∀ r : Int, supplyvoltage r = none ↔ r = 0 := by
    intro r
    unfold supplyvoltage
    rw [fdiv_eq_none_iff]
    exact_mod_cast Iff.rfl
  refine ⟨hiff, fun env s h => ?_, ⟨zeroRefEnv, by decide, by decide, ?_⟩⟩
  · have hv : supplyvoltage env.refReading = none := (hiff _).2 h
    refine ⟨by simpa [loopLocals] using hv, ?_⟩
    rw [fileItems_loop, fileItems_loopPrints, hv]
  · exact (hiff _).2 rfl

theorem supply_division_unguarded_witness :
    (supplyvoltage 0 = none ↔ (0 : Int) = 0) ∧
    ((loopLocals zeroRefEnv).supplyvoltage = none ∧
      fileItems (loop zeroRefEnv (powerOn [])).2 =
        recordItems (zeroRefEnv.millisLog % U32) zeroRefEnv.now zeroRefEnv.tempReading
          (temperatureC zeroRefEnv.tempReading) none) :=
  ⟨supply_division_unguarded.1 0, supply_division_unguarded.2.1 zeroRefEnv (powerOn []) rfl⟩

/-- C7: with `ECHO_TO_SERIAL` set, the items printed to `Serial` during one call
of `loop` are, item for item and in the same order, the items printed to the
log file during that call. -/
theorem echo_equals_record (env : LoopEnv) (s : Machine) :
    ECHO_TO_SERIAL = true ∧ serialItems (loop env s).2 = fileItems (loop env s).2 := by
  refine ⟨rfl, ?_⟩
  rw [serialItems_loop, fileItems_loop, serialItems_loopPrints, fileItems_loopPrints]

/-- C10 as stated fails at `m = 0`: the delay is 999, so `m + d = 999` is not a
multiple of `SamplePeriod`, while 0 itself is a smaller multiple that is `>= m`. -/
theorem delay_boundary_counterexample :
    sampleDelay 0 = 999 ∧ ¬ (SamplePeriod ∣ 0 + sampleDelay 0) ∧
    ¬ (∀ k : Nat, 0 ≤ k → SamplePeriod ∣ k → 0 + sampleDelay 0 ≤ k) := by
  refine ⟨by decide, by decide, fun h => ?_⟩
  have h0 := h 0 (le_refl 0) (dvd_zero _)
  revert h0
  decide

/-- C10, amended: for a 32-bit millisecond counter value `m` the delay
`d = (SamplePeriod - 1) - (m mod SamplePeriod)` does not wrap, `0 <= d < SamplePeriod`,
and `m + d + 1` is the smallest multiple of `SamplePeriod` that is `> m`: the
delay ends one millisecond before the next sample boundary. -/
theorem delay_ends_before_boundary (m : Nat) (hm : m < U32) :
    sampleDelay m = (SamplePeriod - 1) - m % SamplePeriod ∧
    sampleDelay m < SamplePeriod ∧
    SamplePeriod ∣ (m + sampleDelay m + 1) ∧
    m < m + sampleDelay m + 1 ∧
    (∀ k : Nat, m < k → SamplePeriod ∣ k → m + sampleDelay m + 1 ≤ k) := by
  unfold U32 at hm
  have hd : sampleDelay m = 999 - m % 1000 := by
    unfold sampleDelay sub32 U32 SamplePeriod
    omega
  unfold SamplePeriod
  rw [hd]
  refine ⟨rfl, by omega, by omega, by omega, fun k hk hdiv => by omega⟩

theorem delay_ends_before_boundary_witness :
    sampleDelay 1234 = (SamplePeriod - 1) - 1234 % SamplePeriod ∧
    sampleDelay 1234 < SamplePeriod ∧
    SamplePeriod ∣ (1234 + sampleDelay 1234 + 1) ∧
    1234 < 1234 + sampleDelay 1234 + 1 ∧
    (∀ k : Nat, 1234 < k → SamplePeriod ∣ k → 1234 + sampleDelay 1234 + 1 ≤ k) :=
  delay_ends_before_boundary 1234 (by decide)

/-! ## The flush gate -/

theorem sub32_of_le (a b : Nat) (hba : b ≤ a) (ha : a < U32) : sub32 a b = a - b := by
  unfold sub32
  unfold U32 at *
  omega

theorem flush_not_mem_loopPrints (env : LoopEnv) : Event.flush ∉ loopPrints env := by
  simp [loopPrints, ECHO_TO_SERIAL]

theorem flush_mem_loop_iff (env : LoopEnv) (s : Machine) :
    Event.flush ∈ (loop env s).2 ↔ ¬ sub32 env.millisCheck s.syncTime < SavePeriod := by
  by_cases h : sub32 env.millisCheck s.syncTime < SavePeriod
  · rw [loop_of_lt env s h]
    simp [flush_not_mem_loopPrints, h]
  · rw [loop_of_not_lt env s h]
    simp [h]

theorem count_flush_loop (env : LoopEnv) (s : Machine) :
    (loop env s).2.count Event.flush ≤ 1 := by
  have h0 : (loopPrints env).count Event.flush = 0 :=
    List.count_eq_zero.mpr (flush_not_mem_loopPrints env)
  rcases loop_events env s with h | h
  · rw [h, h0]
    exact Nat.zero_le 1
  · rw [h, List.count_append, h0]
    decide

theorem millisReadings_append (xs ys : List LoopEnv) :
    millisReadings (xs ++ ys) = millisReadings xs ++ millisReadings ys := by
  induction xs with
  | nil => rfl
  | cons x xs ih => simp [millisReadings, ih]

theorem flushStamps_chain (envs : List LoopEnv) :
    ∀ s : Machine, (millisReadings envs).Pairwise (fun a b => a ≤ b) →
      (∀ t ∈ millisReadings envs, s.syncTime ≤ t ∧ t < U32) →
      List.Chain (fun a b => a + SavePeriod ≤ b) s.syncTime (flushStamps envs s) := by
  induction envs with
  | nil => intro s _ _; exact List.Chain.nil
  | cons e es ih =>
    intro s hmono hb
    simp only [millisReadings, List.pairwise_cons, List.mem_cons, forall_eq_or_imp] at hmono hb
    obtain ⟨⟨-, -, -, -⟩, ⟨-, -, -⟩, ⟨hcy, hcrest⟩, hyrest, hrest⟩ := hmono
    obtain ⟨-, -, ⟨hsc, hc⟩, ⟨-, hy⟩, hbrest⟩ := hb
    have hymod : e.millisSync % U32 = e.millisSync := Nat.mod_eq_of_lt hy
    unfold flushStamps
    by_cases h : sub32 e.millisCheck s.syncTime < SavePeriod
    · have hnf : Event.flush ∉ (loop e s).2 := by
        rw [flush_mem_loop_iff]
        exact not_not.mpr h
      rw [if_neg hnf]
      have hst : (loop e s).1.syncTime = s.syncTime := by rw [loop_of_lt e s h]
      have := ih (loop e s).1 hrest (by rw [hst]; exact hbrest)
      rwa [hst] at this
    · have hf : Event.flush ∈ (loop e s).2 := (flush_mem_loop_iff e s).mpr h
      rw [if_pos hf]
      have hst : (loop e s).1.syncTime = e.millisSync := by
        rw [loop_of_not_lt e s h]
        exact hymod
      rw [sub32_of_le _ _ hsc hc] at h
      rw [hst]
      refine List.Chain.cons (by omega) ?_
      have := ih (loop e s).1 hrest
        (by rw [hst]; exact fun t ht => ⟨hyrest t ht, (hbrest t ht).2⟩)
      rwa [hst] at this

theorem loopsState_syncTime_le (pre : List LoopEnv) :
    ∀ (s : Machine) (rest : List Nat),
      (millisReadings pre ++ rest).Pairwise (fun a b => a ≤ b) →
      (∀ t ∈ millisReadings pre ++ rest, s.syncTime ≤ t ∧ t < U32) →
      ∀ t ∈ rest, (loopsState pre s).syncTime ≤ t := by
  induction pre with
  | nil => intro s rest _ hb t ht; exact (hb t (by simp [millisReadings, ht])).1
  | cons e es ih =>
    intro s rest hmono hb
    simp only [millisReadings, List.cons_append, List.pairwise_cons, List.mem_cons,
      forall_eq_or_imp] at hmono hb
    obtain ⟨-, -, -, hyrest, hrest⟩ := hmono
    obtain ⟨-, -, -, ⟨-, hy⟩, hbrest⟩ := hb
    unfold loopsState
    apply ih (loop e s).1 rest hrest
    intro t ht
    refine ⟨?_, (hbrest t ht).2⟩
    by_cases h : sub32 e.millisCheck s.syncTime < SavePeriod
    · rw [loop_of_lt e s h]
      exact (hbrest t ht).1
    · rw [loop_of_not_lt e s h]
      exact le_trans (Nat.mod_le _ _) (hyrest t ht)

/-- C2: along every sequence of calls of `loop` whose `millis()` readings are
non-decreasing and do not wrap, started with `syncTime = 0`: a call flushes only
if `millis() - syncTime >= SavePeriod` and then flushes once, `syncTime` changes
only in a call that flushes, and the `syncTime` stamps of consecutive flushes
(the initial 0 included) differ by at least `SavePeriod`, whatever the interval
between the calls. -/
theorem flush_at_most_once_per_period (envs : List LoopEnv) (s : Machine)
    (hs : s.syncTime = 0)
    (hmono : (millisReadings envs).Pairwise (fun a b => a ≤ b))
    (hwrap : ∀ t ∈ millisReadings envs, t < U32) :
    (∀ pre e post, envs = pre ++ e :: post →
      (Event.flush ∈ (loop e (loopsState pre s)).2 →
        (loopsState pre s).syncTime ≤ e.millisCheck ∧
        SavePeriod ≤ e.millisCheck - (loopsState pre s).syncTime) ∧
      ((loop e (loopsState pre s)).1.syncTime ≠ (loopsState pre s).syncTime →
        Event.flush ∈ (loop e (loopsState pre s)).2) ∧
      (loop e (loopsState pre s)).2.count Event.flush ≤ 1) ∧
    List.Chain (fun a b => a + SavePeriod ≤ b) 0 (flushStamps envs s) ∧
    List.Chain' (fun a b => a + SavePeriod ≤ b) (flushStamps envs s) := by
  have hb : ∀ t ∈ millisReadings envs, s.syncTime ≤ t ∧ t < U32 :=
    fun t ht => ⟨by rw [hs]; exact Nat.zero_le t, hwrap t ht⟩
  have hchain := flushStamps_chain envs s hmono hb
  rw [hs] at hchain
  refine ⟨?_, hchain, ?_⟩
  · intro pre e post henv
    subst henv
    rw [millisReadings_append] at hmono hb
    have hle := loopsState_syncTime_le pre s _ hmono hb e.millisCheck
      (by simp [millisReadings])
    have hc : e.millisCheck < U32 :=
      (hb e.millisCheck (by simp [millisReadings])).2
    refine ⟨fun hf => ⟨hle, ?_⟩, fun hne => ?_, count_flush_loop _ _⟩
    · rw [flush_mem_loop_iff, sub32_of_le _ _ hle hc] at hf
      omega
    · by_contra hnf
      rw [flush_mem_loop_iff, not_not] at hnf
      rw [loop_of_lt _ _ hnf] at hne
      exact hne rfl
  · cases hfs : flushStamps envs s with
    | nil => exact List.chain'_nil
    | cons a l =>
      rw [hfs] at hchain
      exact (List.chain_cons.mp hchain).2

theorem flush_at_most_once_per_period_witness :
    (∀ pre e post, [sampleEnv, laterEnv] = pre ++ e :: post →
      (Event.flush ∈ (loop e (loopsState pre (powerOn []))).2 →
        (loopsState pre (powerOn [])).syncTime ≤ e.millisCheck ∧
        SavePeriod ≤ e.millisCheck - (loopsState pre (powerOn [])).syncTime) ∧
      ((loop e (loopsState pre (powerOn []))).1.syncTime ≠
          (loopsState pre (powerOn [])).syncTime →
        Event.flush ∈ (loop e (loopsState pre (powerOn []))).2) ∧
      (loop e (loopsState pre (powerOn []))).2.count Event.flush ≤ 1) ∧
    List.Chain (fun a b => a + SavePeriod ≤ b) 0
      (flushStamps [sampleEnv, laterEnv] (powerOn [])) ∧
    List.Chain' (fun a b => a + SavePeriod ≤ b)
      (flushStamps [sampleEnv, laterEnv] (powerOn [])) :=
  flush_at_most_once_per_period [sampleEnv, laterEnv] (powerOn []) rfl (by decide) (by decide)

/-! ## File names and the search loop -/

set_option maxRecDepth 100000 in
theorem filename_digits :
    ∀ i, i < 100 →
      filename i =
        "LOGGER" ++ String.mk [Nat.digitChar (i / 10), Nat.digitChar (i % 10)] ++ ".CSV" := by
  decide

set_option maxRecDepth 100000 in
theorem filename_toList_lt_succ :
    ∀ i, i < 99 → (filename i).toList < (filename (i + 1)).toList := by
  decide

theorem filename_lt_succ (i : Nat) (h : i < 99) : filename i < filename (i + 1) :=
  String.lt_iff_toList_lt.mpr (filename_toList_lt_succ i h)

theorem filename_lt_add (i d : Nat) (h : i + d + 1 < 100) :
    filename i < filename (i + d + 1) := by
  induction d with
  | zero => exact filename_lt_succ i (by omega)
  | succ d ih => exact lt_trans (ih (by omega)) (filename_lt_succ (i + d + 1) (by omega))

theorem filename_strictMono (i j : Nat) (hij : i < j) (hj : j < 100) :
    filename i < filename j := by
  obtain ⟨d, rfl⟩ : ∃ d, j = i + d + 1 := ⟨j - i - 1, by omega⟩
  exact filename_lt_add i d hj

theorem filename_injective (i j : Nat) (hi : i < 100) (hj : j < 100)
    (h : filename i = filename j) : i = j := by
  rcases Nat.lt_trichotomy i j with hlt | heq | hgt
  · exact absurd h (ne_of_lt (filename_strictMono i j hlt hj))
  · exact heq
  · exact absurd h.symm (ne_of_lt (filename_strictMono j i hgt hi))

theorem filename_length (i : Nat) : (filename i).length = 12 := by
  simp [filename, String.length]

theorem createLoop_opened (card : List String) :
    ∀ k i, openedNames (createLoop card k i).2 =
      match (createLoop card k i).1 with
      | some j => [filename j]
      | none => [] := by
  intro k
  induction k with
  | zero => intro i; rfl
  | succ k ih =>
    intro i
    unfold createLoop
    by_cases hi : i < 100
    · by_cases hmem : filename i ∈ card
      · simpa [hi, hmem, openedNames] using ih (i + 1)
      · simp [hi, hmem, openedNames]
    · simp [hi, openedNames]

theorem createLoop_events (card : List String) :
    ∀ k i, ∀ e ∈ (createLoop card k i).2,
      (∃ n, e = Event.sdExists n) ∨ (∃ n, e = Event.sdOpen n) := by
  intro k
  induction k with
  | zero => intro i e he; simp [createLoop] at he
  | succ k ih =>
    intro i e he
    unfold createLoop at he
    by_cases hi : i < 100
    · by_cases hmem : filename i ∈ card
      · simp only [hi, hmem, if_true, decide_True, Bool.not_true, Bool.false_eq_true,
          if_false, List.mem_cons] at he
        rcases he with he | he
        · exact Or.inl ⟨_, he⟩
        · exact ih (i + 1) e he
      · simp only [hi, hmem, if_true, decide_False, Bool.not_false, List.mem_cons,
          List.mem_singleton, List.not_mem_nil, or_false] at he
        rcases he with he | he
        · exact Or.inl ⟨_, he⟩
        · exact Or.inr ⟨_, he⟩
    · simp [hi] at he

theorem createLoop_least (card : List String) (j : Nat) (hj : j < 100)
    (hfree : filename j ∉ card) :
    ∀ k i, i ≤ j → j < i + k → (∀ l, i ≤ l → l < j → filename l ∈ card) →
      (createLoop card k i).1 = some j := by
  intro k
  induction k with
  | zero => intro i h1 h2; omega
  | succ k ih =>
    intro i hij hjk hbelow
    unfold createLoop
    have hi : i < 100 := by omega
    by_cases hmem : filename i ∈ card
    · have hne : i ≠ j := fun h => hfree (h ▸ hmem)
      simpa [hi, hmem] using
        ih (i + 1) (by omega) (by omega) (fun l h1 h2 => hbelow l (by omega) h2)
    · have : i = j := by
        by_contra hne
        exact hmem (hbelow i (le_refl i) (by omega))
      subst this
      simp [hi, hmem]

theorem createLoop_none (card : List String) :
    ∀ k i, (∀ l, i ≤ l → l < 100 → filename l ∈ card) → (createLoop card k i).1 = none := by
  intro k
  induction k with
  | zero => intro i _; rfl
  | succ k ih =>
    intro i hall
    unfold createLoop
    by_cases hi : i < 100
    · have hmem := hall i (le_refl i) hi
      simpa [hi, hmem] using ih (i + 1) (fun l h1 h2 => hall l (by omega) h2)
    · simp [hi]

theorem exists_least_free (card : List String) (i : Nat)
    (hfree : filename i ∉ card) :
    ∃ j, j ≤ i ∧ filename j ∉ card ∧ ∀ l, l < j → filename l ∈ card := by
  classical
  have hex : ∃ j, filename j ∉ card := ⟨i, hfree⟩
  refine ⟨Nat.find hex, Nat.find_min' hex hfree, Nat.find_spec hex, fun l hl => ?_⟩
  exact not_not.mp (Nat.find_min hex hl)

/-! ## `setup` and the halted state -/

theorem fileItems_append (a b : List Event) :
    fileItems (a ++ b) = fileItems a ++ fileItems b := by
  simp [fileItems]

theorem serialItems_append (a b : List Event) :
    serialItems (a ++ b) = serialItems a ++ serialItems b := by
  simp [serialItems]

theorem analogReads_append (a b : List Event) :
    analogReads (a ++ b) = analogReads a ++ analogReads b := by
  simp [analogReads]

theorem openedNames_append (a b : List Event) :
    openedNames (a ++ b) = openedNames a ++ openedNames b := by
  simp [openedNames]

theorem sdOpen_mem_iff (name : String) (l : List Event) :
    Event.sdOpen name ∈ l ↔ name ∈ openedNames l := by
  induction l with
  | nil => simp [openedNames]
  | cons a l ih =>
    have hcons : openedNames (a :: l) = openedNames [a] ++ openedNames l :=
      openedNames_append [a] l
    rw [hcons, List.mem_append, List.mem_cons, ih]
    cases a <;> simp [openedNames, eq_comm]

theorem fileItems_of_sd (l : List Event)
    (h : ∀ e ∈ l, (∃ n, e = Event.sdExists n) ∨ (∃ n, e = Event.sdOpen n)) :
    fileItems l = [] := by
  induction l with
  | nil => rfl
  | cons a l ih =>
    have hl := ih (fun e he => h e (List.mem_cons_of_mem _ he))
    rcases h a (List.mem_cons_self _ _) with ⟨n, rfl⟩ | ⟨n, rfl⟩ <;>
      simpa [fileItems] using hl

theorem serialItems_of_sd (l : List Event)
    (h : ∀ e ∈ l, (∃ n, e = Event.sdExists n) ∨ (∃ n, e = Event.sdOpen n)) :
    serialItems l = [] := by
  induction l with
  | nil => rfl
  | cons a l ih =>
    have hl := ih (fun e he => h e (List.mem_cons_of_mem _ he))
    rcases h a (List.mem_cons_self _ _) with ⟨n, rfl⟩ | ⟨n, rfl⟩ <;>
      simpa [serialItems] using hl

theorem analogReads_of_sd (l : List Event)
    (h : ∀ e ∈ l, (∃ n, e = Event.sdExists n) ∨ (∃ n, e = Event.sdOpen n)) :
    analogReads l = [] := by
  induction l with
  | nil => rfl
  | cons a l ih =>
    have hl := ih (fun e he => h e (List.mem_cons_of_mem _ he))
    rcases h a (List.mem_cons_self _ _) with ⟨n, rfl⟩ | ⟨n, rfl⟩ <;>
      simpa [analogReads] using hl

theorem flush_not_mem_of_sd (l : List Event)
    (h : ∀ e ∈ l, (∃ n, e = Event.sdExists n) ∨ (∃ n, e = Event.sdOpen n)) :
    Event.flush ∉ l := by
  intro hmem
  rcases h _ hmem with ⟨n, hn⟩ | ⟨n, hn⟩ <;> cases hn

theorem runLoops_of_halted (envs : List LoopEnv) :
    ∀ s : Machine, s.halted = true → runLoops envs s = (s, []) := by
  induction envs with
  | nil => intro s _; rfl
  | cons e es ih =>
    intro s hs
    simp [runLoops, step, hs, ih s hs]

theorem program_of_halted (env : SetupEnv) (card : List String) (envs : List LoopEnv)
    (h : (setup env card).1.halted = true) : program env card envs = setup env card := by
  simp [program, runLoops_of_halted envs _ h]

/-- What `setup` does when `SD.begin` fails. -/
theorem setup_of_sd_fail (env : SetupEnv) (card : List String)
    (h : env.sdBeginOk = false) :
    (setup env card).1 = (error "Card failed, or not present" (powerOn card)).1 ∧
    fileItems (setup env card).2 = [] ∧
    analogReads (setup env card).2 = [] ∧
    openedNames (setup env card).2 = [] ∧
    Event.flush ∉ (setup env card).2 ∧
    (serialItems (setup env card).2).count (Item.str "error: ") = 1 ∧
    ∃ pre, (setup env card).2 =
        pre ++ (error "Card failed, or not present" (powerOn card)).2 ∧
      Item.str "error: " ∉ serialItems pre := by
  refine ⟨by simp [setup, h], by simp [setup, h, error, fileItems],
    by simp [setup, h, error, analogReads], by simp [setup, h, error, openedNames],
    by simp [setup, h, error], by simp [setup, h, error, serialItems, List.count_cons],
    ⟨_, by simp only [setup, h]; rfl, by simp [serialItems]⟩⟩

/-- What `setup` does when `SD.begin` succeeds and no usable `File` results. -/
theorem setup_of_no_file (env : SetupEnv) (card : List String)
    (hsd : env.sdBeginOk = true)
    (h : env.openOk = false ∨ (createLoop card 100 0).1 = none) :
    (setup env card).1 = (error "couldnt create file" (powerOn card)).1 ∧
    fileItems (setup env card).2 = [] ∧
    analogReads (setup env card).2 = [] ∧
    openedNames (setup env card).2 = openedNames (createLoop card 100 0).2 ∧
    Event.flush ∉ (setup env card).2 ∧
    (serialItems (setup env card).2).count (Item.str "error: ") = 1 ∧
    ∃ pre, (setup env card).2 = pre ++ (error "couldnt create file" (powerOn card)).2 ∧
      Item.str "error: " ∉ serialItems pre := by
  have hev := createLoop_events card 100 0
  have hf := fileItems_of_sd _ hev
  have hs := serialItems_of_sd _ hev
  have ha := analogReads_of_sd _ hev
  have hfl := flush_not_mem_of_sd _ hev
  have hs1 : (match (createLoop card 100 0).1 with
      | some i =>
        if env.openOk then
          { powerOn card with TempLogFile := some (filename i),
                              card := filename i :: (powerOn card).card }
        else powerOn card
      | none => powerOn card) = powerOn card := by
    rcases h with h | h
    · cases (createLoop card 100 0).1 <;> simp [h]
    · simp [h]
  have hsetup : setup env card =
      ((error "couldnt create file" (powerOn card)).1,
       ([Event.serialBegin 9600, Event.serial Item.ln, Event.pinMode redLEDpin,
         Event.pinMode greenLEDpin, Event.serial (Item.str "Initializing SD card..."),
         Event.pinMode 10, Event.sdBegin SD_Select] ++
        [Event.serial (Item.str "card initialized."), Event.serial Item.ln] ++
        (createLoop card 100 0).2) ++ (error "couldnt create file" (powerOn card)).2) := by
    simp only [setup, hsd, hs1]
    rfl
  rw [hsetup]
  refine ⟨rfl, ?_, ?_, ?_, ?_, ?_, ⟨_, rfl, ?_⟩⟩
  · simp only [fileItems_append, hf]
    simp [fileItems, error]
  · simp only [analogReads_append, ha]
    simp [analogReads, error]
  · simp only [openedNames_append]
    simp [openedNames, error]
  · simp [error, hfl]
  · simp only [serialItems_append, hs]
    simp [serialItems, error, List.count_cons]
  · simp only [serialItems_append, hs]
    simp [serialItems]

/-- What `setup` does when `SD.begin` succeeds and the search opens index `i`
successfully. -/
theorem setup_of_file (env : SetupEnv) (card : List String) (i : Nat)
    (hsd : env.sdBeginOk = true) (hopen : env.openOk = true)
    (hsome : (createLoop card 100 0).1 = some i) :
    (setup env card).1 =
      { powerOn card with TempLogFile := some (filename i), card := filename i :: card } ∧
    fileItems (setup env card).2 =
      (if env.rtcBeginOk then [] else [Item.str "RTC failed", Item.ln]) ++
        [Item.str headerLine, Item.ln] ∧
    openedNames (setup env card).2 = [filename i] ∧
    Item.str "error: " ∉ serialItems (setup env card).2 := by
  have hev := createLoop_events card 100 0
  have hf := fileItems_of_sd _ hev
  have hs := serialItems_of_sd _ hev
  have ho := createLoop_opened card 100 0
  rw [hsome] at ho
  have hsetup : setup env card =
      ({ powerOn card with TempLogFile := some (filename i), card := filename i :: card },
       ((([Event.serialBegin 9600, Event.serial Item.ln, Event.pinMode redLEDpin,
         Event.pinMode greenLEDpin, Event.serial (Item.str "Initializing SD card..."),
         Event.pinMode 10, Event.sdBegin SD_Select] ++
        [Event.serial (Item.str "card initialized."), Event.serial Item.ln] ++
        (createLoop card 100 0).2) ++
        [Event.serial (Item.str "Logging to: "), Event.serial (Item.str (filename i)),
         Event.serial Item.ln, Event.wireBegin, Event.rtcBegin]) ++
        (if !env.rtcBeginOk then
          [Event.file (Item.str "RTC failed"), Event.file Item.ln] ++
            [Event.serial (Item.str "RTC failed"), Event.serial Item.ln]
         else [])) ++
        [Event.file (Item.str headerLine), Event.file Item.ln] ++
        [Event.serial (Item.str headerLine), Event.serial Item.ln] ++
        [Event.analogReference]) := by
    simp only [setup, hsd, hopen, hsome, ECHO_TO_SERIAL]
    rfl
  rw [hsetup]
  refine ⟨rfl, ?_, ?_, ?_⟩
  · simp only [fileItems_append, hf]
    cases env.rtcBeginOk <;> simp [fileItems]
  · simp only [openedNames_append, ho]
    cases env.rtcBeginOk <;> simp [openedNames]
  · have hne : ¬ "error: " = filename i := by
      intro h
      have hlen := congrArg String.length h
      rw [filename_length] at hlen
      revert hlen
      decide
    have hne2 : ¬ "error: " = headerLine := by decide
    simp only [serialItems_append, hs]
    cases env.rtcBeginOk <;> simp [serialItems, hne, hne2]

theorem loop_halted (e : LoopEnv) (s : Machine) : (loop e s).1.halted = s.halted := by
  by_cases h : sub32 e.millisCheck s.syncTime < SavePeriod
  · rw [loop_of_lt e s h]
  · rw [loop_of_not_lt e s h]

theorem runLoops_of_running (envs : List LoopEnv) :
    ∀ s : Machine, s.halted = false →
      (runLoops envs s).1.halted = false ∧ fileItems (runLoops envs s).2 = recordsOf envs := by
  induction envs with
  | nil => intro s hs; exact ⟨hs, rfl⟩
  | cons e es ih =>
    intro s hs
    have hstep : step e s = loop e s := by simp [step, hs]
    have hnext : (loop e s).1.halted = false := by rw [loop_halted, hs]
    obtain ⟨h1, h2⟩ := ih (loop e s).1 hnext
    simp only [runLoops, hstep, recordsOf, fileItems_append, fileItems_loop,
      fileItems_loopPrints, h2]
    exact ⟨h1, trivial⟩

/-- C3: when `SD.begin` succeeds, the search in `setup` calls `SD.open` exactly
once, on `LOGGERnn.CSV` for the least index `i` in `0..99` whose name is not on
the card, `nn` the two decimal digits of `i`; that name is the least unused name
in lexicographic order, it is the open file when `SD.open` succeeds, and no name
of another index is opened.  When all
100 names are on the card, `SD.open` is not called and `setup` ends in `error`
with the message `couldnt create file`. -/
theorem filename_search_first_unused (env : SetupEnv) (card : List String)
    (hsd : env.sdBeginOk = true) :
    (∀ i, i < 100 → filename i ∉ card → (∀ l, l < i → filename l ∈ card) →
      openedNames (setup env card).2 = [filename i] ∧
      filename i =
        "LOGGER" ++ String.mk [Nat.digitChar (i / 10), Nat.digitChar (i % 10)] ++ ".CSV" ∧
      (env.openOk = true → (setup env card).1.TempLogFile = some (filename i)) ∧
      (∀ j, j < 100 → filename j ∉ card → i ≤ j ∧ filename i ≤ filename j) ∧
      (∀ j, j < 100 → j ≠ i → Event.sdOpen (filename j) ∉ (setup env card).2)) ∧
    ((∀ i, i < 100 → filename i ∈ card) →
      openedNames (setup env card).2 = [] ∧
      (setup env card).1.TempLogFile = none ∧
      (setup env card).1.halted = true ∧
      (setup env card).1.redLED = true ∧
      ∃ pre, (setup env card).2 = pre ++ (error "couldnt create file" (powerOn card)).2) := by
  refine ⟨fun i hi hfree hleast => ?_, fun hall => ?_⟩
  · have hsome : (createLoop card 100 0).1 = some i :=
      createLoop_least card i hi hfree 100 0 (Nat.zero_le i) (by omega)
        (fun l _ hl => hleast l hl)
    have hopened : openedNames (createLoop card 100 0).2 = [filename i] := by
      rw [createLoop_opened, hsome]
    have hnames : openedNames (setup env card).2 = [filename i] := by
      cases hopen : env.openOk with
      | true => exact (setup_of_file env card i hsd hopen hsome).2.2.1
      | false => rw [(setup_of_no_file env card hsd (Or.inl hopen)).2.2.2.1, hopened]
    refine ⟨hnames, filename_digits i hi, fun hopen => ?_, fun j hj hjfree => ?_,
      fun j hj hne hmem => ?_⟩
    · rw [(setup_of_file env card i hsd hopen hsome).1]
    · have hij : i ≤ j := by
        by_contra hlt
        exact hjfree (hleast j (by omega))
      refine ⟨hij, ?_⟩
      rcases Nat.eq_or_lt_of_le hij with heq | hlt
      · rw [heq]
      · exact le_of_lt (filename_strictMono i j hlt hj)
    · rw [sdOpen_mem_iff, hnames, List.mem_singleton] at hmem
      exact hne (filename_injective j i hj hi hmem)
  · have hnone : (createLoop card 100 0).1 = none :=
      createLoop_none card 100 0 (fun l _ hl => hall l hl)
    obtain ⟨hm, -, -, ho, -, -, pre, hpre, -⟩ := setup_of_no_file env card hsd (Or.inr hnone)
    refine ⟨?_, by rw [hm]; rfl, by rw [hm]; rfl, by rw [hm]; rfl, pre, hpre⟩
    rw [ho, createLoop_opened, hnone]

theorem filename_search_first_unused_witness :
    openedNames (setup allOk ["LOGGER00.CSV", "LOGGER02.CSV"]).2 = [filename 1] ∧
    filename 1 =
      "LOGGER" ++ String.mk [Nat.digitChar (1 / 10), Nat.digitChar (1 % 10)] ++ ".CSV" ∧
    (allOk.openOk = true →
      (setup allOk ["LOGGER00.CSV", "LOGGER02.CSV"]).1.TempLogFile = some (filename 1)) ∧
    (∀ j, j < 100 → filename j ∉ ["LOGGER00.CSV", "LOGGER02.CSV"] →
      1 ≤ j ∧ filename 1 ≤ filename j) ∧
    (∀ j, j < 100 → j ≠ 1 →
      Event.sdOpen (filename j) ∉ (setup allOk ["LOGGER00.CSV", "LOGGER02.CSV"]).2) :=
  (filename_search_first_unused allOk ["LOGGER00.CSV", "LOGGER02.CSV"] rfl).1 1
    (by decide) (by decide) (by decide)

/-- C4 as stated fails on the empty card: the first run selects `LOGGER00.CSV`
and creates it, the restart selects `LOGGER01.CSV` and adds it to the card. -/
theorem restart_idempotent_counterexample :
    (setup allOk []).1.TempLogFile = some "LOGGER00.CSV" ∧
    (setup allOk (setup allOk []).1.card).1.TempLogFile = some "LOGGER01.CSV" ∧
    ¬ ((setup allOk (setup allOk []).1.card).1.TempLogFile = (setup allOk []).1.TempLogFile ∧
       ∀ name, name ∈ (setup allOk (setup allOk []).1.card).1.card ↔
         name ∈ (setup allOk []).1.card) := by
  refine ⟨by decide, by decide, fun h => absurd h.1 (by decide)⟩

/-- C4, amended: for every card with an unused index (least one `i`), with
`SD.begin` and `SD.open` succeeding, the first run selects `LOGGERii.CSV` and adds
it to the card; a second run on the card left by the first never selects that
name again: it selects and adds the name of the least index `j` unused on the
new card, and `j > i`; when no index is left unused it opens no file, ends in
`error` and leaves the card as the first run left it. -/
theorem restart_selects_next_unused (e1 e2 : SetupEnv) (card : List String) (i : Nat)
    (hi : i < 100) (hfree : filename i ∉ card) (hleast : ∀ l, l < i → filename l ∈ card)
    (h1 : e1.sdBeginOk = true) (h1o : e1.openOk = true)
    (h2 : e2.sdBeginOk = true) (h2o : e2.openOk = true) :
    (setup e1 card).1.TempLogFile = some (filename i) ∧
    (setup e1 card).1.card = filename i :: card ∧
    (setup e2 (setup e1 card).1.card).1.TempLogFile ≠ some (filename i) ∧
    (∀ j, j < 100 → filename j ∉ filename i :: card →
      (∀ l, l < j → filename l ∈ filename i :: card) →
      i < j ∧
      (setup e2 (setup e1 card).1.card).1.TempLogFile = some (filename j) ∧
      (setup e2 (setup e1 card).1.card).1.card = filename j :: filename i :: card) ∧
    ((∀ j, j < 100 → filename j ∈ filename i :: card) →
      openedNames (setup e2 (setup e1 card).1.card).2 = [] ∧
      (setup e2 (setup e1 card).1.card).1.halted = true ∧
      (setup e2 (setup e1 card).1.card).1.TempLogFile = none ∧
      (setup e2 (setup e1 card).1.card).1.card = filename i :: card) := by
  have hsome : (createLoop card 100 0).1 = some i :=
    createLoop_least card i hi hfree 100 0 (Nat.zero_le i) (by omega)
      (fun l _ hl => hleast l hl)
  have hfirst := (setup_of_file e1 card i h1 h1o hsome).1
  have hcard : (setup e1 card).1.card = filename i :: card := by rw [hfirst]
  have hnext : ∀ j, j < 100 → filename j ∉ filename i :: card →
      (∀ l, l < j → filename l ∈ filename i :: card) →
      (setup e2 (filename i :: card)).1 =
        { powerOn (filename i :: card) with
          TempLogFile := some (filename j), card := filename j :: filename i :: card } := by
    intro j hj hjfree hjleast
    exact (setup_of_file e2 _ j h2 h2o
      (createLoop_least _ j hj hjfree 100 0 (Nat.zero_le j) (by omega)
        (fun l _ hl => hjleast l hl))).1
  have hfull : (∀ j, j < 100 → filename j ∈ filename i :: card) →
      (setup e2 (filename i :: card)).1 =
        (error "couldnt create file" (powerOn (filename i :: card))).1 ∧
      openedNames (setup e2 (filename i :: card)).2 = [] := by
    intro hall
    have hnone : (createLoop (filename i :: card) 100 0).1 = none :=
      createLoop_none _ 100 0 (fun l _ hl => hall l hl)
    have h := setup_of_no_file e2 _ h2 (Or.inr hnone)
    refine ⟨h.1, ?_⟩
    rw [h.2.2.2.1, createLoop_opened, hnone]
  rw [hcard]
  refine ⟨by rw [hfirst], rfl, ?_, fun j hj hjfree hjleast => ?_, fun hall => ?_⟩
  · by_cases hex : ∃ j, j < 100 ∧ filename j ∉ filename i :: card
    · obtain ⟨j0, hj0, hj0free⟩ := hex
      obtain ⟨j, hjle, hjfree, hjleast⟩ := exists_least_free _ j0 hj0free
      rw [hnext j (by omega) hjfree hjleast]
      intro h
      have hEq : filename j = filename i := Option.some.inj h
      exact hjfree (hEq ▸ List.mem_cons_self _ _)
    · have hall : ∀ j, j < 100 → filename j ∈ filename i :: card := by
        intro j hj
        by_contra hjn
        exact hex ⟨j, hj, hjn⟩
      rw [(hfull hall).1]
      simp [error, powerOn]
  · refine ⟨?_, by rw [hnext j hj hjfree hjleast], by rw [hnext j hj hjfree hjleast]⟩
    by_contra hle
    rcases Nat.lt_or_ge j i with hlt | hge
    · exact hjfree (List.mem_cons_of_mem _ (hleast j hlt))
    · have : j = i := by omega
      exact hjfree (this ▸ List.mem_cons_self _ _)
  · obtain ⟨hm, ho⟩ := hfull hall
    exact ⟨ho, by rw [hm]; rfl, by rw [hm]; rfl, by rw [hm]; rfl⟩

theorem restart_selects_next_unused_witness :
    (setup allOk []).1.TempLogFile = some (filename 0) ∧
    (setup allOk []).1.card = filename 0 :: [] ∧
    (setup allOk (setup allOk []).1.card).1.TempLogFile ≠ some (filename 0) ∧
    (∀ j, j < 100 → filename j ∉ filename 0 :: [] →
      (∀ l, l < j → filename l ∈ filename 0 :: []) →
      0 < j ∧
      (setup allOk (setup allOk []).1.card).1.TempLogFile = some (filename j) ∧
      (setup allOk (setup allOk []).1.card).1.card = filename j :: filename 0 :: []) ∧
    ((∀ j, j < 100 → filename j ∈ filename 0 :: []) →
      openedNames (setup allOk (setup allOk []).1.card).2 = [] ∧
      (setup allOk (setup allOk []).1.card).1.halted = true ∧
      (setup allOk (setup allOk []).1.card).1.TempLogFile = none ∧
      (setup allOk (setup allOk []).1.card).1.card = filename 0 :: []) :=
  restart_selects_next_unused allOk allOk [] 0 (by decide) (by decide) (by decide)
    rfl rfl rfl rfl

/-- C5: when `SD.begin` fails, or no log file can be opened (`SD.open` fails or
all 100 names are taken), `setup` ends in `error`: the red LED is set, the
machine is halted, and the halted state is terminal: whatever the main loop is
offered afterwards, the state and the trace stay those of `setup`.  The trace
has no write to the log file, no analog read and no flush, no `SD.open` at all
when `SD.begin` failed, nothing after the calls of `error`, and `error` is
entered exactly once. -/
theorem halt_is_terminal (env : SetupEnv) (card : List String) (envs : List LoopEnv)
    (hfail : env.sdBeginOk = false ∨ env.openOk = false ∨
      ∀ i, i < 100 → filename i ∈ card) :
    (program env card envs).1.halted = true ∧
    (program env card envs).1.redLED = true ∧
    (program env card envs).1.TempLogFile = none ∧
    program env card envs = setup env card ∧
    (∀ e, step e (program env card envs).1 = ((program env card envs).1, [])) ∧
    fileItems (program env card envs).2 = [] ∧
    analogReads (program env card envs).2 = [] ∧
    Event.flush ∉ (program env card envs).2 ∧
    (env.sdBeginOk = false → openedNames (program env card envs).2 = []) ∧
    (serialItems (program env card envs).2).count (Item.str "error: ") = 1 ∧
    (∃ pre msg, (program env card envs).2 = pre ++ (error msg (powerOn card)).2 ∧
      Item.str "error: " ∉ serialItems pre) := by
  have hsetup : ∃ msg, (setup env card).1 = (error msg (powerOn card)).1 ∧
      fileItems (setup env card).2 = [] ∧
      analogReads (setup env card).2 = [] ∧
      (env.sdBeginOk = false → openedNames (setup env card).2 = []) ∧
      Event.flush ∉ (setup env card).2 ∧
      (serialItems (setup env card).2).count (Item.str "error: ") = 1 ∧
      ∃ pre, (setup env card).2 = pre ++ (error msg (powerOn card)).2 ∧
        Item.str "error: " ∉ serialItems pre := by
    cases hsd : env.sdBeginOk with
    | false =>
      obtain ⟨a, b, c, d, e, f, g⟩ := setup_of_sd_fail env card hsd
      exact ⟨_, a, b, c, fun _ => d, e, f, g⟩
    | true =>
      have hno : env.openOk = false ∨ (createLoop card 100 0).1 = none := by
        rcases hfail with h | h | h
        · rw [hsd] at h
          cases h
        · exact Or.inl h
        · exact Or.inr (createLoop_none card 100 0 (fun l _ hl => h l hl))
      obtain ⟨a, b, c, -, e, f, g⟩ := setup_of_no_file env card hsd hno
      exact ⟨_, a, b, c, fun h => absurd h (by decide), e, f, g⟩
  obtain ⟨msg, hm, hf, ha, ho, hfl, hc, pre, hpre, hpre2⟩ := hsetup
  have hhalt : (setup env card).1.halted = true := by rw [hm]; rfl
  have hprog := program_of_halted env card envs hhalt
  rw [hprog]
  refine ⟨hhalt, by rw [hm]; rfl, by rw [hm]; rfl, rfl, fun e => ?_, hf, ha, hfl, ho, hc,
    pre, msg, hpre, hpre2⟩
  simp [step, hhalt]

theorem halt_is_terminal_witness :
    (program noCard [] [sampleEnv, laterEnv]).1.halted = true ∧
    (program noCard [] [sampleEnv, laterEnv]).1.redLED = true ∧
    (program noCard [] [sampleEnv, laterEnv]).1.TempLogFile = none ∧
    program noCard [] [sampleEnv, laterEnv] = setup noCard [] ∧
    (∀ e, step e (program noCard [] [sampleEnv, laterEnv]).1 =
      ((program noCard [] [sampleEnv, laterEnv]).1, [])) ∧
    fileItems (program noCard [] [sampleEnv, laterEnv]).2 = [] ∧
    analogReads (program noCard [] [sampleEnv, laterEnv]).2 = [] ∧
    Event.flush ∉ (program noCard [] [sampleEnv, laterEnv]).2 ∧
    (noCard.sdBeginOk = false → openedNames (program noCard [] [sampleEnv, laterEnv]).2 = []) ∧
    (serialItems (program noCard [] [sampleEnv, laterEnv]).2).count (Item.str "error: ") = 1 ∧
    (∃ pre msg, (program noCard [] [sampleEnv, laterEnv]).2 =
        pre ++ (error msg (powerOn [])).2 ∧
      Item.str "error: " ∉ serialItems pre) :=
  halt_is_terminal noCard [] [sampleEnv, laterEnv] (Or.inl rfl)

/-- C6: when `SD.begin` and the file creation succeed and `RTC.begin` fails,
`setup` writes `RTC failed` to the log file, does not enter `error`, writes the
header line after the notice and returns with the machine running; the main
loop then writes one record per call to the log file. -/
theorem rtc_failure_not_fatal (env : SetupEnv) (card : List String) (envs : List LoopEnv)
    (i : Nat) (hi : i < 100) (hfree : filename i ∉ card)
    (hsd : env.sdBeginOk = true) (hopen : env.openOk = true)
    (hrtc : env.rtcBeginOk = false) :
    (setup env card).1.halted = false ∧
    (setup env card).1.redLED = false ∧
    (setup env card).1.TempLogFile ≠ none ∧
    fileItems (setup env card).2 =
      [Item.str "RTC failed", Item.ln, Item.str headerLine, Item.ln] ∧
    Item.str "error: " ∉ serialItems (setup env card).2 ∧
    (program env card envs).1.halted = false ∧
    fileItems (program env card envs).2 =
      [Item.str "RTC failed", Item.ln, Item.str headerLine, Item.ln] ++ recordsOf envs := by
  obtain ⟨j, hjle, hjfree, hjleast⟩ := exists_least_free card i hfree
  have hsome : (createLoop card 100 0).1 = some j :=
    createLoop_least card j (by omega) hjfree 100 0 (Nat.zero_le j) (by omega)
      (fun l _ hl => hjleast l hl)
  obtain ⟨hm, hf, -, hs⟩ := setup_of_file env card j hsd hopen hsome
  rw [hrtc] at hf
  have hrun : (setup env card).1.halted = false := by rw [hm]; rfl
  obtain ⟨hr1, hr2⟩ := runLoops_of_running envs _ hrun
  refine ⟨hrun, by rw [hm]; rfl, by rw [hm]; simp, by simpa using hf, hs, ?_, ?_⟩
  · simpa [program] using hr1
  · simp only [program, fileItems_append, hr2, hf]
    simp

theorem rtc_failure_not_fatal_witness :
    (setup noClock []).1.halted = false ∧
    (setup noClock []).1.redLED = false ∧
    (setup noClock []).1.TempLogFile ≠ none ∧
    fileItems (setup noClock []).2 =
      [Item.str "RTC failed", Item.ln, Item.str headerLine, Item.ln] ∧
    Item.str "error: " ∉ serialItems (setup noClock []).2 ∧
    (program noClock [] [sampleEnv, laterEnv]).1.halted = false ∧
    fileItems (program noClock [] [sampleEnv, laterEnv]).2 =
      [Item.str "RTC failed", Item.ln, Item.str headerLine, Item.ln] ++
        recordsOf [sampleEnv, laterEnv] :=
  rtc_failure_not_fatal noClock [] [sampleEnv, laterEnv] 0 (by decide) (by decide) rfl rfl rfl

end TempLogger
